import Mathlib

/-
Verification of the asynchronous task & consent orchestration core of the
adk-rnd repository, as a shallow embedding in Lean.

The embedding covers the three components named by the spec:
- the approval queue of mcp/human_in_the_loop_wrapper/main.go
  (pendingCall, callQueue, consentProxyHandler, evalConstraint, handleApproval);
- the long-running task engine duplicated between
  mcp/human_in_the_loop_wrapper/main.go and mcp/long_running_tasks_mcp/main.go
  (LongRunningTask, Run, startLongRunningTask, checkLongRunningTaskHandler,
  and the pass-through proxy handler of long_running_tasks_mcp);
- the session manager of mcp/sqlite_mcp (SessionInfo, SessionManager.GetDB).

Go maps guarded by a mutex become association lists; each handler becomes a
pure state-transition function taking the pre-state and returning the result
together with the post-state.  External collaborators (the upstream MCP
executor reached through mcpClient.CallTool, the CEL evaluation pipeline,
sql.Open) are opaque function parameters, as the spec prescribes.
Go time.Time instants become Nat timestamps; time.Sleep durations are
recorded in the handler's return value.
-/

namespace AdkRnd

/-- Shallow model of mcp.CallToolResult: the constructors mirror the three
library constructors the source uses, NewToolResultText, NewToolResultError
(also the printf variants), and NewToolResultStructured with the
long_running_task_id payload plus fallback text. -/
inductive CallToolResult where
  | text (s : String)
  | error (s : String)
  | structured (longRunningTaskID : String) (fallback : String)
deriving DecidableEq, Repr

/-- Tool-call arguments, modelled as a finite map from argument name to a
string value (the source only ever extracts string arguments and hands the
whole map opaquely to CEL). -/
abbrev ArgMap := List (String × String)

/-- Shallow model of mcp.CallToolRequest: tool name plus arguments. -/
structure CallToolRequest where
  name : String
  args : ArgMap
deriving DecidableEq, Repr

/-- Model of the pendingCall struct (human_in_the_loop_wrapper/main.go).
The unbuffered response channel is not data; delivery on it is modelled by
the outcome of handleApproval and by the WaitEvent fed to consentWork. -/
structure PendingCall where
  ID : Nat
  Request : CallToolRequest
deriving DecidableEq, Repr

/-- Model of LongRunningTaskStatus: the enum with the two values Pending and
Done (iota order preserved). -/
inductive LongRunningTaskStatus where
  | Pending
  | Done
deriving DecidableEq, Repr

/-- Model of the LongRunningTask struct: id string, status, and the result
pointer, which is nil (none) until the background goroutine stores it. -/
structure LongRunningTask where
  ID : String
  status : LongRunningTaskStatus
  result : Option CallToolResult
deriving DecidableEq, Repr

/-- The mutable global state of the wrapper processes: callQueue and
nextCallID guarded by callQueueLock, the longRunningTasks sync.Map, and the
atomic task counter nextID.  The long_running_tasks_mcp process has only the
task half; its handlers simply never touch the queue half. -/
structure ProxyState where
  callQueue : List (Nat × PendingCall)
  nextCallID : Nat
  tasks : List (String × LongRunningTask)
  nextID : Nat
deriving DecidableEq, Repr

/-- Deletion from a Go map, on the association-list representation:
drop every pair bearing the key. -/
def removeKey {κ α : Type} [BEq κ] (l : List (κ × α)) (k : κ) : List (κ × α) :=
  l.filter (fun p => p.1 != k)

/-- Outcome of the /approve and /reject HTTP handler: either the 404
"Not found" reply, or a decision delivered on the pending call's channel. -/
inductive DecideOutcome where
  | notFound
  | delivered (result : CallToolResult)
deriving DecidableEq, Repr

/-- Model of handleApproval (human_in_the_loop_wrapper/main.go:244-274),
after the transport-level Atoi parse.  Under callQueueLock it reads
callQueue[id] and deletes the entry (the Go code deletes before the nil
check, hence the filter in both branches); if nothing was there it replies
Not found; otherwise on approve it forwards the held request to the upstream
executor (callTool, an opaque parameter standing for mcpClient.CallTool with
its 30s timeout) and delivers the result or a Forward error result, and on
reject it delivers the canned rejection result. -/
def handleApproval (approve : Bool) (id : Nat) (st : ProxyState)
    (callTool : CallToolRequest → Except String CallToolResult) :
    DecideOutcome × ProxyState :=
  match List.lookup id st.callQueue with
  | none => (.notFound, { st with callQueue := removeKey st.callQueue id })
  | some pc =>
    let st' : ProxyState := { st with callQueue := removeKey st.callQueue id }
    if approve then
      match callTool pc.Request with
      | .error e => (.delivered (.error ("Forward error: " ++ e)), st')
      | .ok res => (.delivered res, st')
    else
      (.delivered (.error "User rejected the request"), st')

/-- Model of Run (identical in both wrapper sources): allocate the next id
from the atomic counter (atomic.AddUint64 returns the incremented value, so
the first id is "1"), and create the task in status Pending with no result.
The goroutine that later runs the work is modelled separately by
completeTask. -/
def Run (st : ProxyState) : LongRunningTask × ProxyState :=
  ({ ID := toString (st.nextID + 1), status := .Pending, result := none },
   { st with nextID := st.nextID + 1 })

/-- The single write the background goroutine of Run performs once the work
function returns: under the task's mutex, set status to Done and store the
result. -/
def completeTask (t : LongRunningTask) (out : CallToolResult) : LongRunningTask :=
  { t with status := .Done, result := some out }

/-- Model of startLongRunningTask: run Run, store the task in the
longRunningTasks map, and return the structured result that carries the new
task id. -/
def startLongRunningTask (st : ProxyState) : CallToolResult × ProxyState :=
  let (t, st') := Run st
  (.structured t.ID ("Started long running task with ID: " ++ t.ID),
   { st' with tasks := (t.ID, t) :: st'.tasks })

/-- Model of evalConstraint (human_in_the_loop_wrapper/main.go:152-188): an
empty constraint expression is accepted outright; otherwise the CEL
env-compile-program-eval pipeline runs, modelled by the opaque parameter
celEval returning either the boolean value or the first error of the
pipeline (compile error, eval error, or non-boolean output). -/
def evalConstraint (celEval : String → ArgMap → Except String Bool)
    (constraintExpr : String) (args : ArgMap) : Except String Bool :=
  if constraintExpr = "" then .ok true
  else celEval constraintExpr args

/-- The two ways the select inside the consent work function can be woken:
a value arriving on the response channel, or ctx.Done firing. -/
inductive WaitEvent where
  | response (r : CallToolResult)
  | cancelled
deriving DecidableEq, Repr

/-- Model of the work closure consentProxyHandler hands to
startLongRunningTask (main.go:134-148): under callQueueLock allocate the
next call id, register the pendingCall in callQueue, then block on the
select; the parameter ev says which arm fires.  On cancellation the closure
returns the Cancelled error result and, as in the source, removes nothing
from callQueue. -/
def consentWork (st : ProxyState) (req : CallToolRequest) (ev : WaitEvent) :
    CallToolResult × ProxyState :=
  let id := st.nextCallID
  let pc : PendingCall := { ID := id, Request := req }
  let st' : ProxyState :=
    { st with callQueue := (id, pc) :: st.callQueue, nextCallID := id + 1 }
  match ev with
  | .response result => (result, st')
  | .cancelled => (.error "Cancelled while waiting for approval", st')

/-- Model of consentProxyHandler (main.go:125-150): evaluate the constraint;
an evaluation error or a false verdict returns the corresponding error
result at once, touching neither the queue nor the task engine; otherwise
the remainder is wrapped in startLongRunningTask (whose work closure,
consentWork, only runs later in the spawned goroutine). -/
def consentProxyHandler (celEval : String → ArgMap → Except String Bool)
    (st : ProxyState) (req : CallToolRequest) (constraintExpr : String) :
    CallToolResult × ProxyState :=
  match evalConstraint celEval constraintExpr req.args with
  | .error e => (.error ("constraint failed to evaluate: " ++ e), st)
  | .ok false => (.error "constraint returned false", st)
  | .ok true => startLongRunningTask st

/-- The fixed cooldown the Pending branch of checkLongRunningTaskHandler
sleeps, in seconds: time.Sleep(3 * time.Second). -/
def pendingCooldownSeconds : Nat := 3

/-- Model of checkLongRunningTaskHandler (identical in both wrapper
sources).  Returns the reply (none when the stored Done result pointer is
nil, mirroring the raw pointer return), the number of seconds the handler
slept before replying, and the post-state; the handler only loads from the
task map, so the post-state is the pre-state. -/
def checkLongRunningTaskHandler (st : ProxyState) (r : CallToolRequest) :
    Option CallToolResult × Nat × ProxyState :=
  match List.lookup "id" r.args with
  | none => (some (.error "missing required argument"), 0, st)
  | some id =>
    match List.lookup id st.tasks with
    | none => (some (.error ("unknown task ID " ++ id)), 0, st)
    | some t =>
      match t.status with
      | .Pending =>
        (some (.text ("Task " ++ id ++ " is pending")), pendingCooldownSeconds, st)
      | .Done => (t.result, 0, st)

/-- Model of the per-tool proxy handler of long_running_tasks_mcp/main.go
(lines 89-108): a tool name not in the enabled lroMethods set is forwarded
straight to the upstream executor with no task machinery, a forwarding error
being wrapped as an error result; an enabled name starts a long-running task
whose work closure performs the same forward later. -/
def proxyToolHandler (lroMethods : List String) (name : String)
    (st : ProxyState) (req : CallToolRequest)
    (callTool : CallToolRequest → Except String CallToolResult) :
    CallToolResult × ProxyState :=
  if name ∈ lroMethods then
    startLongRunningTask st
  else
    match callTool req with
    | .error e => (.error ("forward error: " ++ e), st)
    | .ok res => (res, st)

/-- Model of the SessionInfo struct of sqlite_mcp's session manager:
backing file path, absolute expiry instant, and the diagnostic last-access
instant.  Instants are Nat timestamps; Go's now.After(t) is t < now. -/
structure SessionInfo where
  Path : String
  ExpiresAt : Nat
  LastAccess : Nat
deriving DecidableEq, Repr

/-- Opaque handle standing for the *sql.DB sql.Open returns. -/
structure DB where
  path : String
deriving DecidableEq, Repr

/-- The state of a SessionManager that GetDB reads and writes: the sessions
map guarded by mu, and the fixed expiration (TTL) configuration value.
rootDir and cleanupFreq play no role in the access path. -/
structure SessionManager where
  sessions : List (String × SessionInfo)
  expiration : Nat
deriving DecidableEq, Repr

/-- Model of SessionManager.GetDB (pkg/sessionmanager, lines 94-119).
Under mu: unknown key fails with invalid session; a key whose expiry is
strictly before now (now.After(info.ExpiresAt)) is deleted from the map and
fails with session expired; otherwise the entry is renewed in place
(LastAccess = now, ExpiresAt = now + expiration) and only then is the
backing file opened — sql.Open is the opaque parameter openDB, whose failure
is returned after the renewal has already been written. -/
def GetDB (m : SessionManager) (sessionID : String) (now : Nat)
    (openDB : String → Except String DB) : Except String DB × SessionManager :=
  match List.lookup sessionID m.sessions with
  | none => (.error "invalid session", m)
  | some info =>
    if info.ExpiresAt < now then
      (.error "session expired", { m with sessions := removeKey m.sessions sessionID })
    else
      let info' : SessionInfo := { info with LastAccess := now, ExpiresAt := now + m.expiration }
      let m' : SessionManager := { m with sessions := (sessionID, info') :: removeKey m.sessions sessionID }
      match openDB info.Path with
      | .error e => (.error ("failed to open sqlite db: " ++ e), m')
      | .ok db => (.ok db, m')

/-- Boolean success test for an Except value. -/
def isOkE {ε α : Type} : Except ε α → Bool
  | .ok _ => true
  | .error _ => false

/-- Run a sequence of GetDB accesses to one session, each at the given
timestamp, threading the manager state; stop at the first failure. -/
def runAccessTimes (sessionID : String) (openDB : String → Except String DB) :
    SessionManager → List Nat → Except String SessionManager
  | m, [] => .ok m
  | m, t :: ts =>
    match GetDB m sessionID t openDB with
    | (.error e, _) => .error e
    | (.ok _, m') => runAccessTimes sessionID openDB m' ts

/-- The sliding-window side condition of the spec's access-sequence
property: each access time is strictly before the expiry current at that
point, the expiry being pushed to t + ttl by each access. -/
def beforeCurrentExpiry (ttl : Nat) : Nat → List Nat → Bool
  | _, [] => true
  | e, t :: ts => decide (t < e) && beforeCurrentExpiry ttl (t + ttl) ts

/-- Lookup of a key it was just removed for finds nothing. -/
theorem lookup_removeKey_self {κ α : Type} [BEq κ] [LawfulBEq κ]
    (l : List (κ × α)) (k : κ) : List.lookup k (removeKey l k) = none := by
  induction l with
  | nil => rfl
  | cons p l ih =>
    by_cases h : p.1 = k
    · simpa [removeKey, h] using ih
    · have hb : (p.1 != k) = true := by simp [h]
      have hk : (k == p.1) = false := by
        simp [beq_eq_false_iff_ne]
        exact fun hkk => h hkk.symm
      simp only [removeKey, List.filter_cons, hb, if_true]
      simpa [List.lookup, hk, removeKey] using ih

/-- Whatever the branch taken, handleApproval leaves the queue with the id
filtered out (the Go code deletes the key unconditionally). -/
theorem handleApproval_callQueue (a : Bool) (id : Nat) (st : ProxyState)
    (f : CallToolRequest → Except String CallToolResult) :
    ((handleApproval a id st f).2).callQueue = removeKey st.callQueue id := by
  unfold handleApproval
  split
  · rfl
  · split
    · split <;> rfl
    · rfl

/-- An id absent from the queue makes handleApproval reply Not found. -/
theorem handleApproval_absent (a : Bool) (id : Nat) (st : ProxyState)
    (f : CallToolRequest → Except String CallToolResult)
    (h : List.lookup id st.callQueue = none) :
    (handleApproval a id st f).1 = DecideOutcome.notFound := by
  unfold handleApproval
  simp [h]

/-- C1: a Decide on a pending id removes the entry under the queue lock and
delivers a decision; the post-state no longer contains the id, so any second
Decide on the same id — approve or reject, whatever the executor does —
replies Not found.  Hence at most one of approve/reject ever succeeds per
id, and an absent id always fails with Not found. -/
theorem handleApproval_at_most_one_decision
    (st : ProxyState) (id : Nat) (a₁ a₂ : Bool)
    (f₁ f₂ : CallToolRequest → Except String CallToolResult) (pc : PendingCall)
    (h : List.lookup id st.callQueue = some pc) :
    (handleApproval a₁ id st f₁).1 ≠ DecideOutcome.notFound ∧
    List.lookup id ((handleApproval a₁ id st f₁).2).callQueue = none ∧
    (handleApproval a₂ id ((handleApproval a₁ id st f₁).2) f₂).1 =
      DecideOutcome.notFound := by
  have hq : List.lookup id ((handleApproval a₁ id st f₁).2).callQueue = none := by
    rw [handleApproval_callQueue]
    exact lookup_removeKey_self st.callQueue id
  refine ⟨?_, hq, handleApproval_absent _ _ _ _ hq⟩
  unfold handleApproval
  simp only [h]
  cases a₁ with
  | false => simp
  | true => cases hf : f₁ pc.Request <;> simp [hf]

/-- Witness for C1: queue holding pending call 1; an approve whose forward
succeeds, then a reject on the same id. -/
theorem handleApproval_at_most_one_decision_witness :
    (handleApproval true 1 ⟨[(1, ⟨1, ⟨"t", []⟩⟩)], 2, [], 0⟩
        (fun _ => Except.ok (.text "r"))).1 ≠ DecideOutcome.notFound ∧
    List.lookup 1 ((handleApproval true 1 ⟨[(1, ⟨1, ⟨"t", []⟩⟩)], 2, [], 0⟩
        (fun _ => Except.ok (.text "r"))).2).callQueue = none ∧
    (handleApproval false 1 ((handleApproval true 1 ⟨[(1, ⟨1, ⟨"t", []⟩⟩)], 2, [], 0⟩
        (fun _ => Except.ok (.text "r"))).2) (fun _ => Except.ok (.text "r"))).1 =
      DecideOutcome.notFound :=
  handleApproval_at_most_one_decision _ 1 true false _ _ ⟨1, ⟨"t", []⟩⟩ rfl

/-- C5: a wait whose context is cancelled before a decision arrives returns
the Cancelled result to the waiter, and the pendingCall entry it registered
is still in the pending set — the post-queue is the registered entry consed
onto the old queue, so cancellation removes nothing. -/
theorem cancelled_wait_keeps_pending_entry (st : ProxyState) (req : CallToolRequest) :
    (consentWork st req .cancelled).1 = .error "Cancelled while waiting for approval" ∧
    List.lookup st.nextCallID ((consentWork st req .cancelled).2).callQueue =
      some { ID := st.nextCallID, Request := req } ∧
    ((consentWork st req .cancelled).2).callQueue =
      (st.nextCallID, { ID := st.nextCallID, Request := req }) :: st.callQueue := by
  refine ⟨rfl, ?_, rfl⟩
  simp [consentWork, List.lookup]

/-- C6: when the pre-check constraint evaluates to false or fails to
evaluate, consentProxyHandler returns the corresponding error result with
the state untouched: no pendingCall is registered, no task id is issued, no
counter moves. -/
theorem constraint_failure_reaches_no_queue
    (celEval : String → ArgMap → Except String Bool)
    (st : ProxyState) (req : CallToolRequest) (constraintExpr : String)
    (h : evalConstraint celEval constraintExpr req.args = .ok false ∨
         ∃ e, evalConstraint celEval constraintExpr req.args = .error e) :
    (consentProxyHandler celEval st req constraintExpr).2 = st ∧
    ((consentProxyHandler celEval st req constraintExpr).1 =
        .error "constraint returned false" ∨
      ∃ e, evalConstraint celEval constraintExpr req.args = .error e ∧
        (consentProxyHandler celEval st req constraintExpr).1 =
          .error ("constraint failed to evaluate: " ++ e)) := by
  rcases h with h | ⟨e, h⟩
  · unfold consentProxyHandler
    rw [h]
    exact ⟨rfl, Or.inl rfl⟩
  · unfold consentProxyHandler
    rw [h]
    exact ⟨rfl, Or.inr ⟨e, rfl, rfl⟩⟩

/-- Witness for C6: the spec scenario — a constraint whose CEL evaluation
returns false (args.size smaller than required) leaves the state unchanged. -/
theorem constraint_failure_reaches_no_queue_witness :
    (consentProxyHandler (fun _ _ => Except.ok false)
      ⟨[], 1, [], 0⟩ ⟨"add_task", [("description", "ab")]⟩ "args.description.size() > 3").2 =
      (⟨[], 1, [], 0⟩ : ProxyState) :=
  (constraint_failure_reaches_no_queue (fun _ _ => Except.ok false)
    ⟨[], 1, [], 0⟩ ⟨"add_task", [("description", "ab")]⟩ "args.description.size() > 3"
    (Or.inl (by simp [evalConstraint]))).1

/-- C10: an empty (absent) constraint expression is accepted without the CEL
engine or the arguments playing any part — the verdict is ok true for every
evaluator and every argument map — and the handler with an empty constraint
proceeds straight to starting the long-running approval task. -/
theorem empty_constraint_passes_through
    (celEval : String → ArgMap → Except String Bool)
    (st : ProxyState) (req : CallToolRequest) :
    (∀ args : ArgMap, evalConstraint celEval "" args = .ok true) ∧
    consentProxyHandler celEval st req "" = startLongRunningTask st := by
  constructor
  · intro args
    simp [evalConstraint]
  · unfold consentProxyHandler
    simp [evalConstraint]

/-- C3: CheckStatus behaviour: an unknown task id fails with the unknown-id
error; a Pending task replies still-pending after the fixed 3-second
cooldown sleep; a Done task returns the stored result immediately (zero
sleep), the task map is untouched, and a repeated check returns the very
same answer — no deletion on read. -/
theorem checkLongRunningTask_poll_spec (st : ProxyState) (r : CallToolRequest)
    (id : String) (h : List.lookup "id" r.args = some id) :
    (List.lookup id st.tasks = none →
      checkLongRunningTaskHandler st r =
        (some (.error ("unknown task ID " ++ id)), 0, st)) ∧
    (∀ t : LongRunningTask, List.lookup id st.tasks = some t →
      t.status = .Pending →
      checkLongRunningTaskHandler st r =
        (some (.text ("Task " ++ id ++ " is pending")), pendingCooldownSeconds, st) ∧
      pendingCooldownSeconds = 3) ∧
    (∀ t : LongRunningTask, List.lookup id st.tasks = some t →
      t.status = .Done →
      checkLongRunningTaskHandler st r = (t.result, 0, st) ∧
      checkLongRunningTaskHandler ((checkLongRunningTaskHandler st r).2.2) r =
        checkLongRunningTaskHandler st r) := by
  refine ⟨?_, ?_, ?_⟩
  · intro hn
    simp only [checkLongRunningTaskHandler, h, hn]
  · intro t ht hp
    refine ⟨?_, rfl⟩
    simp only [checkLongRunningTaskHandler, h, ht, hp]
  · intro t ht hd
    have h1 : checkLongRunningTaskHandler st r = (t.result, 0, st) := by
      simp only [checkLongRunningTaskHandler, h, ht, hd]
    refine ⟨h1, ?_⟩
    conv_lhs => rw [h1]

/-- Witness for C3: a map holding task "1" already Done with a stored text
result; the check returns that result with no sleep and no state change. -/
theorem checkLongRunningTask_poll_spec_witness :
    checkLongRunningTaskHandler ⟨[], 1, [("1", ⟨"1", .Done, some (.text "ok")⟩)], 1⟩
        ⟨"check_long_running_task", [("id", "1")]⟩ =
      (some (.text "ok"), 0,
        ⟨[], 1, [("1", ⟨"1", .Done, some (.text "ok")⟩)], 1⟩) :=
  ((checkLongRunningTask_poll_spec
      ⟨[], 1, [("1", ⟨"1", .Done, some (.text "ok")⟩)], 1⟩
      ⟨"check_long_running_task", [("id", "1")]⟩ "1" rfl).2.2
    ⟨"1", .Done, some (.text "ok")⟩ rfl rfl).1

/-- C4: a tool name not configured behind a long-running operation is
forwarded straight to the executor: the global state is returned untouched
(no task registered, no pending call, no counter bumped), a successful
executor result is returned verbatim, and an executor error comes back as
the wrapped forward-error result. -/
theorem passthrough_equals_direct_executor_call
    (lroMethods : List String) (name : String) (st : ProxyState)
    (req : CallToolRequest)
    (callTool : CallToolRequest → Except String CallToolResult)
    (h : name ∉ lroMethods) :
    (proxyToolHandler lroMethods name st req callTool).2 = st ∧
    (∀ res, callTool req = .ok res →
      (proxyToolHandler lroMethods name st req callTool).1 = res) ∧
    (∀ e, callTool req = .error e →
      (proxyToolHandler lroMethods name st req callTool).1 =
        .error ("forward error: " ++ e)) := by
  unfold proxyToolHandler
  simp only [if_neg h]
  refine ⟨?_, ?_, ?_⟩
  · cases hc : callTool req <;> simp [hc]
  · intro res hr
    rw [hr]
  · intro e he
    rw [he]

/-- Witness for C4: name "b" is not among the configured methods, the
executor succeeds, and the handler returns its result with the state
unchanged. -/
theorem passthrough_equals_direct_executor_call_witness :
    (proxyToolHandler ["a"] "b" ⟨[], 1, [], 0⟩ ⟨"b", []⟩
        (fun _ => Except.ok (.text "r"))).2 = (⟨[], 1, [], 0⟩ : ProxyState) ∧
    (proxyToolHandler ["a"] "b" ⟨[], 1, [], 0⟩ ⟨"b", []⟩
        (fun _ => Except.ok (.text "r"))).1 = .text "r" :=
  ⟨(passthrough_equals_direct_executor_call ["a"] "b" ⟨[], 1, [], 0⟩ ⟨"b", []⟩
      (fun _ => Except.ok (.text "r")) (by decide)).1,
   (passthrough_equals_direct_executor_call ["a"] "b" ⟨[], 1, [], 0⟩ ⟨"b", []⟩
      (fun _ => Except.ok (.text "r")) (by decide)).2.1 _ rfl⟩

/-- Task as Run first creates it: status Pending, no result yet. -/
def mkTask (id : String) : LongRunningTask :=
  { ID := id, status := .Pending, result := none }

/-- The states a task object passes through during the life of its Run: the
initial Pending state and, once the goroutine has run the work function to
an outcome, the Done state; out? = none is the life before completion. -/
def taskStates (id : String) (out? : Option CallToolResult) : List LongRunningTask :=
  match out? with
  | none => [mkTask id]
  | some out => [mkTask id, completeTask (mkTask id) out]

/-- C8: at every state a task passes through, the stored result is non-nil
exactly when the status is Done; the status history is Pending, or Pending
then Done — the transition happens once and never reverses; and Run starts
every task in the mkTask state. -/
theorem task_result_iff_done_and_monotonic (id : String)
    (out? : Option CallToolResult) :
    (∀ t ∈ taskStates id out?, (t.status = .Done ↔ t.result ≠ none)) ∧
    ((taskStates id out?).map LongRunningTask.status = [.Pending] ∨
     (taskStates id out?).map LongRunningTask.status = [.Pending, .Done]) ∧
    (∀ st : ProxyState, (Run st).1 = mkTask (toString (st.nextID + 1))) := by
  refine ⟨?_, ?_, fun st => rfl⟩
  · cases out? <;> simp [taskStates, mkTask, completeTask]
  · cases out?
    · exact Or.inl rfl
    · exact Or.inr rfl

/-- C2 counterexample: a session whose ExpiresAt is exactly now (5).  The
claim says an access at now with now greater than or equal to ExpiresAt
evicts the entry and fails with session expired; the code tests
now.After(ExpiresAt), which is strict, so at the boundary instant GetDB
neither fails with session expired nor evicts — it renews the entry. -/
theorem getDB_expiry_boundary_counterexample :
    List.lookup "s" ((⟨[("s", ⟨"p", 5, 0⟩)], 10⟩ : SessionManager)).sessions =
      some ⟨"p", 5, 0⟩ ∧
    ((⟨"p", 5, 0⟩ : SessionInfo)).ExpiresAt ≤ 5 ∧
    (GetDB ⟨[("s", ⟨"p", 5, 0⟩)], 10⟩ "s" 5 (fun p => .ok ⟨p⟩)).1 ≠
      .error "session expired" ∧
    List.lookup "s" ((GetDB ⟨[("s", ⟨"p", 5, 0⟩)], 10⟩ "s" 5
        (fun p => .ok ⟨p⟩)).2).sessions ≠ none := by
  refine ⟨rfl, le_refl 5, fun hc => Except.noConfusion hc, fun hc => Option.noConfusion hc⟩

/-- C2 (amended): an Access made strictly after ExpiresAt — the condition
the code's now.After(ExpiresAt) actually tests — removes the entry from the
session map and fails with session expired, for every backing opener; hence
a session whose ExpiresAt lies strictly in the past is never returned as
valid. -/
theorem getDB_strictly_expired_evicts (m : SessionManager) (sid : String)
    (now : Nat) (openDB : String → Except String DB) (info : SessionInfo)
    (hfound : List.lookup sid m.sessions = some info)
    (hexp : info.ExpiresAt < now) :
    (GetDB m sid now openDB).1 = .error "session expired" ∧
    List.lookup sid ((GetDB m sid now openDB).2).sessions = none := by
  constructor
  · simp only [GetDB, hfound, if_pos hexp]
  · simp only [GetDB, hfound, if_pos hexp]
    exact lookup_removeKey_self m.sessions sid

/-- Witness for the amended C2: expiry 5, access at 6 — evicted and failed. -/
theorem getDB_strictly_expired_evicts_witness :
    (GetDB ⟨[("s", ⟨"p", 5, 0⟩)], 10⟩ "s" 6 (fun p => .ok ⟨p⟩)).1 =
      .error "session expired" ∧
    List.lookup "s" ((GetDB ⟨[("s", ⟨"p", 5, 0⟩)], 10⟩ "s" 6
        (fun p => .ok ⟨p⟩)).2).sessions = none :=
  getDB_strictly_expired_evicts ⟨[("s", ⟨"p", 5, 0⟩)], 10⟩ "s" 6
    (fun p => .ok ⟨p⟩) ⟨"p", 5, 0⟩ rfl (by decide)

/-- C9: on a known, unexpired session GetDB first writes the renewal
(LastAccess = now, ExpiresAt = now + TTL) into the map and only then opens
the backing file, so when the open fails the call returns the open error
while the map already holds the renewed entry — the error path is not
atomic with respect to session state. -/
theorem getDB_renews_before_open_failure (m : SessionManager) (sid : String)
    (now : Nat) (openDB : String → Except String DB) (info : SessionInfo)
    (e : String)
    (hfound : List.lookup sid m.sessions = some info)
    (hlive : ¬ info.ExpiresAt < now)
    (hopen : openDB info.Path = .error e) :
    (GetDB m sid now openDB).1 = .error ("failed to open sqlite db: " ++ e) ∧
    List.lookup sid ((GetDB m sid now openDB).2).sessions =
      some { info with LastAccess := now, ExpiresAt := now + m.expiration } := by
  constructor
  · simp only [GetDB, hfound, if_neg hlive, hopen]
  · simp only [GetDB, hfound, if_neg hlive, hopen]
    simp [List.lookup]

/-- Witness for C9: live session, opener that fails — error returned, entry
renewed to 7 + 5 = 12. -/
theorem getDB_renews_before_open_failure_witness :
    (GetDB ⟨[("s", ⟨"p", 10, 0⟩)], 5⟩ "s" 7 (fun _ => .error "boom")).1 =
      .error ("failed to open sqlite db: " ++ "boom") ∧
    List.lookup "s" ((GetDB ⟨[("s", ⟨"p", 10, 0⟩)], 5⟩ "s" 7
        (fun _ => .error "boom")).2).sessions = some ⟨"p", 12, 7⟩ :=
  getDB_renews_before_open_failure ⟨[("s", ⟨"p", 10, 0⟩)], 5⟩ "s" 7
    (fun _ => .error "boom") ⟨"p", 10, 0⟩ "boom" rfl (by decide) rfl

/-- Accesses each made strictly before the expiry current at that point all
succeed, provided the backing opener succeeds: the sliding renewal keeps the
entry alive across the whole sequence. -/
theorem runAccessTimes_ok_of_chain (sid : String)
    (openDB : String → Except String DB)
    (hopen : ∀ p, isOkE (openDB p) = true) :
    ∀ (ts : List Nat) (m : SessionManager) (info : SessionInfo),
      List.lookup sid m.sessions = some info →
      beforeCurrentExpiry m.expiration info.ExpiresAt ts = true →
      isOkE (runAccessTimes sid openDB m ts) = true := by
  intro ts
  induction ts with
  | nil => intro m info _ _; rfl
  | cons t ts ih =>
    intro m info hfound hchain
    simp only [beforeCurrentExpiry, Bool.and_eq_true, decide_eq_true_eq] at hchain
    obtain ⟨hlt, hchain'⟩ := hchain
    have hlive : ¬ info.ExpiresAt < t := by omega
    cases hop : openDB info.Path with
    | error e => exact absurd (hopen info.Path) (by simp [hop, isOkE])
    | ok db =>
      have hG : GetDB m sid t openDB =
          (.ok db, { m with sessions :=
            ((sid, { info with LastAccess := t, ExpiresAt := t + m.expiration })
              :: removeKey m.sessions sid) }) := by
        simp only [GetDB, hfound, if_neg hlive, hop]
      simp only [runAccessTimes, hG]
      exact ih _ { info with LastAccess := t, ExpiresAt := t + m.expiration }
        (by simp [List.lookup]) hchain'

/-- C7: a successful Access at now renews the entry to LastAccess = now and
ExpiresAt = now + TTL (so the new expiry is at least now + TTL), and any
sequence of further accesses, each made strictly before the expiry current
at that point, never fails — assuming the backing opener (sql.Open, an
external collaborator) succeeds. -/
theorem access_renews_and_chained_access_succeeds (m : SessionManager)
    (sid : String) (now : Nat) (ts : List Nat)
    (openDB : String → Except String DB) (info : SessionInfo)
    (hopen : ∀ p, isOkE (openDB p) = true)
    (hfound : List.lookup sid m.sessions = some info)
    (hnow : now < info.ExpiresAt)
    (hchain : beforeCurrentExpiry m.expiration info.ExpiresAt ts = true) :
    isOkE (GetDB m sid now openDB).1 = true ∧
    List.lookup sid ((GetDB m sid now openDB).2).sessions =
      some { info with LastAccess := now, ExpiresAt := now + m.expiration } ∧
    now + m.expiration ≤
      ({ info with
          LastAccess := now, ExpiresAt := now + m.expiration } : SessionInfo).ExpiresAt ∧
    isOkE (runAccessTimes sid openDB m ts) = true := by
  have hlive : ¬ info.ExpiresAt < now := by omega
  refine ⟨?_, ?_, le_refl _,
    runAccessTimes_ok_of_chain sid openDB hopen ts m info hfound hchain⟩
  · cases hop : openDB info.Path with
    | error e => exact absurd (hopen info.Path) (by simp [hop, isOkE])
    | ok db => simp [GetDB, hfound, if_neg hlive, hop, isOkE]
  · cases hop : openDB info.Path with
    | error e => exact absurd (hopen info.Path) (by simp [hop, isOkE])
    | ok db => simp [GetDB, hfound, if_neg hlive, hop, List.lookup]

/-- Witness for C7: TTL 10, expiry 5; access at 1 renews to 11; the chain
2 then 11 stays before each current expiry and succeeds throughout. -/
theorem access_renews_and_chained_access_succeeds_witness :
    isOkE (GetDB ⟨[("s", ⟨"p", 5, 0⟩)], 10⟩ "s" 1 (fun p => .ok ⟨p⟩)).1 = true ∧
    List.lookup "s" ((GetDB ⟨[("s", ⟨"p", 5, 0⟩)], 10⟩ "s" 1
        (fun p => .ok ⟨p⟩)).2).sessions = some ⟨"p", 11, 1⟩ ∧
    (1 : Nat) + 10 ≤ ((⟨"p", 11, 1⟩ : SessionInfo)).ExpiresAt ∧
    isOkE (runAccessTimes "s" (fun p => .ok ⟨p⟩)
        ⟨[("s", ⟨"p", 5, 0⟩)], 10⟩ [2, 11]) = true :=
  access_renews_and_chained_access_succeeds ⟨[("s", ⟨"p", 5, 0⟩)], 10⟩ "s" 1
    [2, 11] (fun p => .ok ⟨p⟩) ⟨"p", 5, 0⟩ (fun _ => rfl) rfl (by decide)
    (by decide)

end AdkRnd
